import Mathlib

set_option maxRecDepth 8000

/-!
Verification of the aiapp-scanner core: a shallow embedding of the
anonymization primitives (`_anonymize_identifier`, `_anonymize_hostname`,
`_sanitize_paths_in_output`) and of the four evidence probes
(`ApplicationScanner`, `CLIToolScanner`, `ConfigurationScanner`,
`VSCodeExtensionScanner`) from `aiapp_scanner.py`, together with theorems
settling the specification claims about them.

Python strings are modelled as Lean `String` (a wrapper of `List Char`),
Python byte strings as `List Nat`, the MD5 digest by a word-level `Nat`
implementation of RFC 1321, and filesystem or process effects by explicit
environment records of functions, with Python exceptions as `Except`.
-/

/-! Python string primitives. -/

/-- The whitespace characters stripped by Python `str.strip()` (ASCII range). -/
def isPyWs (c : Char) : Bool :=
  c == ' ' || c == '\t' || c == '\n' || c == '\r' || c == '\x0b' || c == '\x0c'

/-- Python `str.strip()` on a character list: drop leading and trailing whitespace. -/
def pyStripL (l : List Char) : List Char :=
  ((l.dropWhile isPyWs).reverse.dropWhile isPyWs).reverse

/-- Python `str.strip()`. -/
def pyStrip (s : String) : String := ⟨pyStripL s.data⟩

/-- The last `n` elements of a list (Python slice `x[-n:]` for `0 < n ≤ len(x)`). -/
def takeRightL (n : Nat) (l : List Char) : List Char := l.drop (l.length - n)

/-- Python `str.lower()` (ASCII case mapping). -/
def lowerStr (s : String) : String := ⟨s.data.map Char.toLower⟩

/-- Decide whether `pat` occurs at the head of `l`. -/
def leadsL : List Char → List Char → Bool
  | [], _ => true
  | _ :: _, [] => false
  | p :: ps, c :: cs => p == c && leadsL ps cs

/-- Python substring test `pat in s`. -/
def subOccurs (pat : List Char) : List Char → Bool
  | [] => pat.isEmpty
  | c :: cs => leadsL pat (c :: cs) || subOccurs pat cs

/-- Python `s.endswith(suffix)`. -/
def endsWithL (suffix l : List Char) : Bool := leadsL suffix.reverse l.reverse

/-- Python `s.rstrip(chars)`: drop trailing characters drawn from the set `chars`. -/
def pyRstripSet (chars : String) (s : String) : String :=
  ⟨(s.data.reverse.dropWhile (chars.data.contains ·)).reverse⟩

/-! MD5 (RFC 1321) over byte lists, words as `Nat` reduced mod 2^32.
This models the `hashlib.md5(...).hexdigest()` call of the source. -/

/-- 2^32, the word modulus of MD5. -/
def w32 : Nat := 4294967296

/-- The 64 MD5 sine-table constants. -/
def md5K : List Nat :=
  [0xd76aa478, 0xe8c7b756, 0x242070db, 0xc1bdceee,
   0xf57c0faf, 0x4787c62a, 0xa8304613, 0xfd469501,
   0x698098d8, 0x8b44f7af, 0xffff5bb1, 0x895cd7be,
   0x6b901122, 0xfd987193, 0xa679438e, 0x49b40821,
   0xf61e2562, 0xc040b340, 0x265e5a51, 0xe9b6c7aa,
   0xd62f105d, 0x02441453, 0xd8a1e681, 0xe7d3fbc8,
   0x21e1cde6, 0xc33707d6, 0xf4d50d87, 0x455a14ed,
   0xa9e3e905, 0xfcefa3f8, 0x676f02d9, 0x8d2a4c8a,
   0xfffa3942, 0x8771f681, 0x6d9d6122, 0xfde5380c,
   0xa4beea44, 0x4bdecfa9, 0xf6bb4b60, 0xbebfbc70,
   0x289b7ec6, 0xeaa127fa, 0xd4ef3085, 0x04881d05,
   0xd9d4d039, 0xe6db99e5, 0x1fa27cf8, 0xc4ac5665,
   0xf4292244, 0x432aff97, 0xab9423a7, 0xfc93a039,
   0x655b59c3, 0x8f0ccc92, 0xffeff47d, 0x85845dd1,
   0x6fa87e4f, 0xfe2ce6e0, 0xa3014314, 0x4e0811a1,
   0xf7537e82, 0xbd3af235, 0x2ad7d2bb, 0xeb86d391]

/-- The 64 MD5 per-round left-rotation amounts. -/
def md5S : List Nat :=
  [7, 12, 17, 22, 7, 12, 17, 22, 7, 12, 17, 22, 7, 12, 17, 22,
   5, 9, 14, 20, 5, 9, 14, 20, 5, 9, 14, 20, 5, 9, 14, 20,
   4, 11, 16, 23, 4, 11, 16, 23, 4, 11, 16, 23, 4, 11, 16, 23,
   6, 10, 15, 21, 6, 10, 15, 21, 6, 10, 15, 21, 6, 10, 15, 21]

/-- Rotate a 32-bit word left by `n`. -/
def rotl32 (x n : Nat) : Nat := ((x <<< n) % w32) ||| (x >>> (32 - n))

/-- The MD5 round function for step `i` applied to registers `b c d`. -/
def md5F (i b c d : Nat) : Nat :=
  if i < 16 then (b &&& c) ||| ((b ^^^ 0xffffffff) &&& d)
  else if i < 32 then (d &&& b) ||| ((d ^^^ 0xffffffff) &&& c)
  else if i < 48 then b ^^^ c ^^^ d
  else c ^^^ (b ||| (d ^^^ 0xffffffff))

/-- The MD5 message-word index for step `i`. -/
def md5G (i : Nat) : Nat :=
  if i < 16 then i
  else if i < 32 then (5 * i + 1) % 16
  else if i < 48 then (3 * i + 5) % 16
  else (7 * i) % 16

/-- Little-endian word `g` of a 64-byte chunk. -/
def md5Word (chunk : List Nat) (g : Nat) : Nat :=
  chunk.getD (4 * g) 0 + 256 * chunk.getD (4 * g + 1) 0 +
    65536 * chunk.getD (4 * g + 2) 0 + 16777216 * chunk.getD (4 * g + 3) 0

/-- One MD5 step: update the register quadruple at step index `i`. -/
def md5Step (chunk : List Nat) (st : Nat × Nat × Nat × Nat) (i : Nat) : Nat × Nat × Nat × Nat :=
  let a := st.1
  let b := st.2.1
  let c := st.2.2.1
  let d := st.2.2.2
  let f := (md5F i b c d + a + md5K.getD i 0 + md5Word chunk (md5G i)) % w32
  (d, (b + rotl32 f (md5S.getD i 0)) % w32, b, c)

/-- Process one 64-byte chunk, adding the mixed registers back into the state. -/
def md5ProcessChunk (st : Nat × Nat × Nat × Nat) (chunk : List Nat) : Nat × Nat × Nat × Nat :=
  let r := (List.range 64).foldl (md5Step chunk) st
  ((st.1 + r.1) % w32, (st.2.1 + r.2.1) % w32, (st.2.2.1 + r.2.2.1) % w32,
    (st.2.2.2 + r.2.2.2) % w32)

/-- `k` little-endian bytes of `n`. -/
def leBytes : Nat → Nat → List Nat
  | 0, _ => []
  | k + 1, n => (n % 256) :: leBytes k (n / 256)

/-- MD5 padding: `0x80`, zeros to 56 mod 64, then the 64-bit little-endian bit length. -/
def md5Pad (msg : List Nat) : List Nat :=
  let m := msg.length % 64
  let zeros := if m ≤ 55 then 55 - m else 119 - m
  msg ++ [0x80] ++ List.replicate zeros 0 ++ leBytes 8 ((msg.length * 8) % (2 ^ 64))

/-- Split a byte list into chunks of 64; `fuel` bounds the recursion structurally. -/
def chunks64Aux : Nat → List Nat → List (List Nat)
  | 0, _ => []
  | _, [] => []
  | fuel + 1, x :: xs => ((x :: xs).take 64) :: chunks64Aux fuel ((x :: xs).drop 64)

/-- Split a byte list into chunks of 64. -/
def chunks64 (l : List Nat) : List (List Nat) := chunks64Aux l.length l

/-- The MD5 initial register values. -/
def md5Init : Nat × Nat × Nat × Nat := (0x67452301, 0xefcdab89, 0x98badcfe, 0x10325476)

/-- The 16-byte MD5 digest of a byte list. -/
def md5DigestBytes (msg : List Nat) : List Nat :=
  let st := (chunks64 (md5Pad msg)).foldl md5ProcessChunk md5Init
  leBytes 4 st.1 ++ leBytes 4 st.2.1 ++ leBytes 4 st.2.2.1 ++ leBytes 4 st.2.2.2

/-- A lowercase hex digit. -/
def hexDigit (n : Nat) : Char :=
  if n < 10 then Char.ofNat (48 + n) else Char.ofNat (87 + n)

/-- Two lowercase hex digits of one byte. -/
def byteHex (b : Nat) : List Char := [hexDigit (b / 16), hexDigit (b % 16)]

/-- The 32-character lowercase hex digest of a byte list (Python `hexdigest()`). -/
def md5HexL (msg : List Nat) : List Char := ((md5DigestBytes msg).map byteHex).flatten

/-- UTF-8 encoding of one code point. -/
def utf8Char (c : Char) : List Nat :=
  let n := c.toNat
  if n < 0x80 then [n]
  else if n < 0x800 then [0xc0 + n / 64, 0x80 + n % 64]
  else if n < 0x10000 then [0xe0 + n / 4096, 0x80 + (n / 64) % 64, 0x80 + n % 64]
  else [0xf0 + n / 262144, 0x80 + (n / 4096) % 64, 0x80 + (n / 64) % 64, 0x80 + n % 64]

/-- UTF-8 bytes of a string (Python `s.encode(utf-8)`). -/
def utf8Bytes (s : String) : List Nat := (s.data.map utf8Char).flatten

/-! The anonymizer, embedded from `_anonymize_identifier` and
`_anonymize_hostname` in `aiapp_scanner.py` (lines 22-40). -/

/-- Embedding of `_anonymize_identifier`: first 4 chars of the stripped value
(the whole value when shorter, the literal `unknown` when the value strips to
empty) followed by the last 8 hex characters of the MD5 hex digest of the
UTF-8 bytes of the stripped value. -/
def anonymizeIdentifier (value : String) : String :=
  let v := if value = "" ∨ pyStrip value = "" then "unknown" else value
  let v2 := pyStrip v
  let pfx := if 4 ≤ v2.data.length then (⟨v2.data.take 4⟩ : String) else v2
  pfx ++ (⟨takeRightL 8 (md5HexL (utf8Bytes v2))⟩ : String)

/-- Embedding of `_anonymize_hostname`: on a hostname whose lowercase form ends
with `.local`, all trailing characters of the lowercased hostname drawn from
the character set of `.local` are stripped (Python `rstrip`); otherwise the
hostname passes through unchanged; the result is fed to `_anonymize_identifier`. -/
def anonymizeHostname (hostname : String) : String :=
  if hostname = "" then anonymizeIdentifier "unknown"
  else
    anonymizeIdentifier
      (if endsWithL ".local".data (lowerStr hostname).data = true then
        pyRstripSet ".local" (lowerStr hostname)
      else hostname)

/-- The effective value hashed by the anonymizer: the stripped input, or the
literal `unknown` when the input strips to empty. -/
def effValue (s : String) : String := if pyStrip s = "" then "unknown" else pyStrip s

/-- The 8-character digest suffix the anonymizer appends for effective value `t`. -/
def digestSuffix8 (t : String) : List Char := takeRightL 8 (md5HexL (utf8Bytes t))

/-- The anonymizer as worded by the specification: trim whitespace, substitute
the literal `unknown` for an empty result, concatenate the first 4 characters
with the last 8 hex characters of the MD5 hex digest of the UTF-8 bytes. -/
def anonymizeIdentifierSpec (raw : String) : String :=
  let trimmed := pyStrip raw
  let t := if trimmed = "" then "unknown" else trimmed
  (⟨t.data.take 4⟩ : String) ++ (⟨takeRightL 8 (md5HexL (utf8Bytes t))⟩ : String)

theorem pyStrip_empty : pyStrip "" = "" := rfl

theorem pyStrip_unknown : pyStrip "unknown" = "unknown" := rfl

theorem anonymizeIdentifier_data (s : String) :
    (anonymizeIdentifier s).data = (effValue s).data.take 4 ++ digestSuffix8 (effValue s) := by
  simp only [anonymizeIdentifier, effValue, digestSuffix8]
  by_cases h : pyStrip s = ""
  · rw [if_pos (Or.inr h), if_pos h, pyStrip_unknown]
    rw [if_pos (by decide : 4 ≤ ("unknown" : String).data.length)]
    simp only [String.data_append]
  · have hs : ¬ (s = "" ∨ pyStrip s = "") := by
      rintro (rfl | hc)
      · exact h pyStrip_empty
      · exact h hc
    rw [if_neg hs, if_neg h]
    by_cases h4 : 4 ≤ (pyStrip s).data.length
    · rw [if_pos h4]
      simp only [String.data_append]
    · rw [if_neg h4]
      simp only [String.data_append]
      rw [List.take_of_length_le (by omega)]

theorem anonymizeIdentifierSpec_data (s : String) :
    (anonymizeIdentifierSpec s).data =
      (effValue s).data.take 4 ++ digestSuffix8 (effValue s) := by
  unfold anonymizeIdentifierSpec effValue digestSuffix8
  simp only [String.data_append]

/-- C2: the anonymizer is a pure function (hence deterministic) and computes
exactly the prefix-plus-digest-suffix form the specification describes: the
first 4 characters of the trimmed value (the whole value when shorter than 4,
the literal `unknown` when the value trims to empty) followed by the last 8
hex characters of the lowercase MD5 hex digest of the UTF-8 bytes of that
value; the output length is at most 12. -/
theorem c2_anonymize_identifier_matches_spec (s : String) :
    anonymizeIdentifier s = anonymizeIdentifierSpec s ∧
      (anonymizeIdentifier s).length ≤ 12 := by
  constructor
  · exact String.ext ((anonymizeIdentifier_data s).trans (anonymizeIdentifierSpec_data s).symm)
  · have h : (anonymizeIdentifier s).data =
        (effValue s).data.take 4 ++ digestSuffix8 (effValue s) :=
      anonymizeIdentifier_data s
    have hlen : (anonymizeIdentifier s).length = (anonymizeIdentifier s).data.length := rfl
    rw [hlen, h, List.length_append]
    have h1 : ((effValue s).data.take 4).length ≤ 4 := by
      simp [List.length_take]
    have h2 : (digestSuffix8 (effValue s)).length ≤ 8 := by
      unfold digestSuffix8 takeRightL
      rw [List.length_drop]
      omega
    omega

/-- C8: every string that strips to empty (the empty string, a single space,
any all-whitespace string) is anonymized exactly like the literal `unknown`. -/
theorem c8_whitespace_equals_unknown (s : String) (h : pyStrip s = "") :
    anonymizeIdentifier s = anonymizeIdentifier "unknown" := by
  apply String.ext
  rw [anonymizeIdentifier_data, anonymizeIdentifier_data]
  have h1 : effValue s = "unknown" := by
    unfold effValue
    rw [if_pos h]
  have h2 : effValue "unknown" = "unknown" := by
    unfold effValue
    rw [pyStrip_unknown]
    rw [if_neg (by decide)]
  rw [h1, h2]

/-- Witness for C8 at the concrete inputs `""` and `" "`. -/
theorem c8_whitespace_equals_unknown_witness :
    (pyStrip "" = "" ∧ anonymizeIdentifier "" = anonymizeIdentifier "unknown") ∧
      (pyStrip " " = "" ∧ anonymizeIdentifier " " = anonymizeIdentifier "unknown") :=
  ⟨⟨rfl, c8_whitespace_equals_unknown "" rfl⟩,
    ⟨rfl, c8_whitespace_equals_unknown " " rfl⟩⟩

/-! Substring and digest-length helper lemmas. -/

theorem leadsL_iff (p : List Char) : ∀ l : List Char, leadsL p l = true ↔ p <+: l := by
  induction p with
  | nil =>
    intro l
    simp [leadsL, List.nil_prefix]
  | cons x xs ih =>
    intro l
    cases l with
    | nil => simp [leadsL, List.prefix_nil]
    | cons c cs =>
      rw [show leadsL (x :: xs) (c :: cs) = (x == c && leadsL xs cs) from rfl]
      rw [Bool.and_eq_true, beq_iff_eq, ih, List.cons_prefix_cons]

theorem subOccurs_iff (p : List Char) : ∀ l : List Char, subOccurs p l = true ↔ p <:+: l := by
  intro l
  induction l with
  | nil => simp [subOccurs, List.isEmpty_iff, List.infix_nil]
  | cons c cs ih =>
    simp [subOccurs, Bool.or_eq_true, leadsL_iff, ih, List.infix_cons_iff]

theorem leBytes_length (k n : Nat) : (leBytes k n).length = k := by
  induction k generalizing n with
  | zero => rfl
  | succ m ih => simp [leBytes, ih]

theorem md5DigestBytes_length (m : List Nat) : (md5DigestBytes m).length = 16 := by
  unfold md5DigestBytes
  simp [leBytes_length]

theorem flatten_map_byteHex_length (l : List Nat) :
    ((l.map byteHex).flatten).length = 2 * l.length := by
  induction l with
  | nil => rfl
  | cons b bs ih =>
    simp only [List.map_cons, List.flatten_cons, List.length_append, ih, List.length_cons]
    simp [byteHex]
    omega

theorem md5HexL_length (m : List Nat) : (md5HexL m).length = 32 := by
  unfold md5HexL
  rw [flatten_map_byteHex_length, md5DigestBytes_length]

theorem digestSuffix8_length (t : String) : (digestSuffix8 t).length = 8 := by
  unfold digestSuffix8 takeRightL
  rw [List.length_drop, md5HexL_length]

/-- C3 counterexample: for the one-character input `z` the anonymizer output
contains `z` verbatim (it is the prefix), while neither `z` nor its at most
4-character leading segment occurs anywhere in the 8-character digest suffix,
so the claimed exemption does not apply. -/
theorem c3_short_input_counterexample :
    subOccurs ("z" : String).data (anonymizeIdentifier "z").data = true ∧
      subOccurs (("z" : String).data.take 4) (digestSuffix8 (effValue "z")) = false := by
  exact ⟨by decide, by decide⟩

/-- C3 (amended): for inputs whose effective trimmed value has at least 5
characters, the anonymizer output contains that value verbatim only when the
part of the value beyond its 4-character prefix coincides with a segment of
the digest suffix. -/
theorem c3_amended_output_hides_long_input (s : String)
    (h5 : 5 ≤ (effValue s).data.length)
    (hc : subOccurs (effValue s).data (anonymizeIdentifier s).data = true) :
    (effValue s).data.drop 4 <:+: digestSuffix8 (effValue s) := by
  rw [anonymizeIdentifier_data, subOccurs_iff] at hc
  obtain ⟨pre, post, heq⟩ := hc
  have hplen : ((effValue s).data.take 4).length = 4 := by
    rw [List.length_take]
    omega
  have hkey : (effValue s).data.drop 4 ++ post = (digestSuffix8 (effValue s)).drop pre.length := by
    have hdrop := congrArg (List.drop (pre.length + 4)) heq
    rw [List.append_assoc] at hdrop
    rw [List.drop_append] at hdrop
    rw [List.drop_append_of_le_length (by omega)] at hdrop
    have hrhs : List.drop (pre.length + 4)
        ((effValue s).data.take 4 ++ digestSuffix8 (effValue s)) =
        (digestSuffix8 (effValue s)).drop pre.length := by
      rw [show pre.length + 4 = ((effValue s).data.take 4).length + pre.length by omega]
      rw [List.drop_append]
    rw [hrhs] at hdrop
    exact hdrop
  refine ⟨(digestSuffix8 (effValue s)).take pre.length, post, ?_⟩
  rw [List.append_assoc, hkey, List.take_append_drop]

/-- Witness for C3 (amended) at the concrete input `hostc`, whose fifth
character coincides with the first digest-suffix character, so the output
`hostcd830ddd` really does contain the input. -/
theorem c3_amended_output_hides_long_input_witness :
    5 ≤ (effValue "hostc").data.length ∧
      subOccurs (effValue "hostc").data (anonymizeIdentifier "hostc").data = true ∧
      (effValue "hostc").data.drop 4 <:+: digestSuffix8 (effValue "hostc") :=
  ⟨by decide, by decide,
    c3_amended_output_hides_long_input "hostc" (by decide) (by decide)⟩

/-! C5 and C10: hostname anonymization. -/

theorem lowerStr_empty : lowerStr "" = "" := rfl

theorem not_endsLocal_empty : ¬ endsWithL ".local".data (lowerStr "").data = true := by decide

/-- C5 counterexample: on `myhost.local.local` the code strips both trailing
`.local` tokens (Python `rstrip` strips a character set), so the result equals
the pseudonym of `myhost`, not the pseudonym of `myhost.local` that exactly
one-suffix stripping would give. -/
theorem c5_rstrip_counterexample :
    anonymizeHostname "myhost.local.local" = anonymizeIdentifier "myhost" ∧
      anonymizeHostname "myhost.local.local" ≠ anonymizeIdentifier "myhost.local" := by
  exact ⟨by decide, by decide⟩

/-- C5 (amended): when the lowercased hostname ends with `.local`, the code
lowercases the hostname and strips all trailing characters drawn from the
character set of `.local` (so `myhost.local` maps to the pseudonym of
`myhost`, but so does `myhost.local.local`); a hostname not ending in
`.local` is passed to the identifier anonymizer unchanged, and the empty
hostname takes the `unknown` path. -/
theorem c5_amended_hostname_stripping (h : String) :
    (endsWithL ".local".data (lowerStr h).data = true →
      anonymizeHostname h = anonymizeIdentifier (pyRstripSet ".local" (lowerStr h))) ∧
    (endsWithL ".local".data (lowerStr h).data = false → h ≠ "" →
      anonymizeHostname h = anonymizeIdentifier h) ∧
    (h = "" → anonymizeHostname h = anonymizeIdentifier "unknown") ∧
    anonymizeHostname "myhost.local" = anonymizeIdentifier "myhost" := by
  refine ⟨?_, ?_, ?_, by decide⟩
  · intro hE
    have hne : h ≠ "" := by
      rintro rfl
      exact not_endsLocal_empty hE
    unfold anonymizeHostname
    rw [if_neg hne, if_pos hE]
  · intro hE hne
    unfold anonymizeHostname
    rw [if_neg hne, if_neg (by simp [hE])]
  · rintro rfl
    unfold anonymizeHostname
    rw [if_pos rfl]

/-- Witness for C5 (amended) at `A.LOCAL` (suffix present, case-insensitive),
`examplehost` (no suffix) and the empty hostname. -/
theorem c5_amended_hostname_stripping_witness :
    (endsWithL ".local".data (lowerStr "A.LOCAL").data = true ∧
      anonymizeHostname "A.LOCAL" = anonymizeIdentifier (pyRstripSet ".local" (lowerStr "A.LOCAL"))) ∧
    (endsWithL ".local".data (lowerStr "examplehost").data = false ∧
      anonymizeHostname "examplehost" = anonymizeIdentifier "examplehost") ∧
    anonymizeHostname "" = anonymizeIdentifier "unknown" :=
  ⟨⟨by decide, (c5_amended_hostname_stripping "A.LOCAL").1 (by decide)⟩,
    ⟨by decide, (c5_amended_hostname_stripping "examplehost").2.1 (by decide) (by decide)⟩,
    (c5_amended_hostname_stripping "").2.2.1 rfl⟩

theorem lowerStr_data_length (s : String) : (lowerStr s).data.length = s.data.length := by
  simp [lowerStr]

/-- C10 counterexample: `hosta` and `hostA` differ only in letter case, do not
end in `.local`, and indeed receive different pseudonyms, but their
4-character prefixes are both `host` — the claimed reason (differing
prefixes) is false for case differences beyond the fourth character. -/
theorem c10_prefix_counterexample :
    lowerStr "hosta" = lowerStr "hostA" ∧
      endsWithL ".local".data (lowerStr "hosta").data = false ∧
      ("hosta" : String) ≠ "hostA" ∧
      ("hosta" : String).data.take 4 = ("hostA" : String).data.take 4 ∧
      anonymizeHostname "hosta" ≠ anonymizeHostname "hostA" := by
  exact ⟨by decide, by decide, by decide, by decide, by decide⟩

/-- C10 (amended): hostnames ending in `.local` (case-insensitively) are
lowercased before hashing, so two such hostnames differing only in letter
case receive the same pseudonym; hostnames without the suffix are hashed
case-sensitively, and two of them differing in case within the first 4
characters receive different pseudonyms because the visible prefixes differ. -/
theorem c10_amended_case_sensitivity (h1 h2 : String) :
    (lowerStr h1 = lowerStr h2 →
      endsWithL ".local".data (lowerStr h1).data = true →
      anonymizeHostname h1 = anonymizeHostname h2) ∧
    (lowerStr h1 = lowerStr h2 →
      endsWithL ".local".data (lowerStr h1).data = false →
      pyStrip h1 = h1 → pyStrip h2 = h2 →
      h1.data.take 4 ≠ h2.data.take 4 →
      anonymizeHostname h1 ≠ anonymizeHostname h2) := by
  constructor
  · intro hl hE
    have hne1 : h1 ≠ "" := by
      rintro rfl
      exact not_endsLocal_empty hE
    have hne2 : h2 ≠ "" := by
      rintro rfl
      rw [hl, lowerStr_empty] at hE
      exact not_endsLocal_empty hE
    have hE2 : endsWithL ".local".data (lowerStr h2).data = true := hl ▸ hE
    unfold anonymizeHostname
    rw [if_neg hne1, if_neg hne2, if_pos hE, if_pos hE2, hl]
  · intro hl hE hs1 hs2 htake
    have hne1 : h1 ≠ "" := by
      rintro rfl
      rw [lowerStr_empty] at hl
      have h2nil : h2.data = [] := by
        have hd := congrArg String.data hl
        simpa [lowerStr, List.map_eq_nil_iff] using hd.symm
      exact htake (by rw [h2nil])
    have hne2 : h2 ≠ "" := by
      rintro rfl
      rw [lowerStr_empty] at hl
      have h1nil : h1.data = [] := by
        have hd := congrArg String.data hl.symm
        simpa [lowerStr, List.map_eq_nil_iff] using hd.symm
      exact htake (by rw [h1nil])
    have hE2 : endsWithL ".local".data (lowerStr h2).data = false := hl ▸ hE
    unfold anonymizeHostname
    rw [if_neg hne1, if_neg hne2, if_neg (by simp [hE]), if_neg (by simp [hE2])]
    intro heq
    have hdata := congrArg String.data heq
    rw [anonymizeIdentifier_data, anonymizeIdentifier_data] at hdata
    have heff1 : effValue h1 = h1 := by
      unfold effValue
      rw [hs1, if_neg hne1]
    have heff2 : effValue h2 = h2 := by
      unfold effValue
      rw [hs2, if_neg hne2]
    rw [heff1, heff2] at hdata
    have hlen : h1.data.length = h2.data.length := by
      have hd := congrArg String.data hl
      have hdl := congrArg List.length hd
      simpa [lowerStr, List.length_map] using hdl
    have hlen4 : (h1.data.take 4).length = (h2.data.take 4).length := by
      simp [List.length_take, hlen]
    exact htake (List.append_inj hdata hlen4).1

/-- Witness for C10 (amended): `MyHost.Local` and `myhost.LOCAL` collapse to
one pseudonym; `HostX` and `hostX` (case difference at the first character)
receive different pseudonyms. -/
theorem c10_amended_case_sensitivity_witness :
    (lowerStr "MyHost.Local" = lowerStr "myhost.LOCAL" ∧
      anonymizeHostname "MyHost.Local" = anonymizeHostname "myhost.LOCAL") ∧
    (lowerStr "HostX" = lowerStr "hostX" ∧
      ("HostX" : String).data.take 4 ≠ ("hostX" : String).data.take 4 ∧
      anonymizeHostname "HostX" ≠ anonymizeHostname "hostX") :=
  ⟨⟨by decide, (c10_amended_case_sensitivity "MyHost.Local" "myhost.LOCAL").1 (by decide) (by decide)⟩,
    ⟨by decide, by decide,
      (c10_amended_case_sensitivity "HostX" "hostX").2 (by decide) (by decide)
        (by decide) (by decide) (by decide)⟩⟩

/-! Python `str.replace` and the sanitizer `_sanitize_paths_in_output`
(`aiapp_scanner.py` lines 43-59). The report tree is the closed variant
string | number | list | map; lists and maps are encoded as cons chains
(`arrCons`/`dictCons`) so that all recursion is structural, with map
entries in insertion order. -/

/-- Python `s.replace(old, new)` for an empty `old`: interleave `new`
around every character. -/
def replEmptyPat (rep : List Char) : List Char → List Char
  | [] => rep
  | c :: cs => rep ++ c :: replEmptyPat rep cs

/-- Left-to-right non-overlapping replacement scan for a nonempty pattern
`p0 :: ps`; `fuel` bounds the recursion structurally and is at least the
length of the scanned list at every call. -/
def replScanAux (p0 : Char) (ps rep : List Char) : Nat → List Char → List Char
  | _, [] => []
  | 0, l => l
  | fuel + 1, c :: cs =>
    if leadsL (p0 :: ps) (c :: cs) = true then
      rep ++ replScanAux p0 ps rep fuel (cs.drop ps.length)
    else c :: replScanAux p0 ps rep fuel cs

/-- Python `s.replace(old, new)` on character lists (all occurrences,
left to right, non-overlapping). -/
def pyReplaceL (pat rep l : List Char) : List Char :=
  match pat with
  | [] => replEmptyPat rep l
  | p0 :: ps => replScanAux p0 ps rep l.length l

/-- Python `s.replace(old, new)`. -/
def pyReplace (s pat rep : String) : String := ⟨pyReplaceL pat.data rep.data s.data⟩

/-- A report tree: nested maps, lists, strings and non-string leaves, the
shape `_sanitize_paths_in_output` walks. `arrCons v rest` is a list whose
first element is `v`; `dictCons k v rest` is a map whose first entry maps
`k` to `v`. -/
inductive RTree where
  | str : String → RTree
  | num : Int → RTree
  | arrNil : RTree
  | arrCons : RTree → RTree → RTree
  | dictNil : RTree
  | dictCons : String → RTree → RTree → RTree
deriving DecidableEq

/-- The treatment a container slot receives from `_sanitize_paths_in_output`:
a string containing `real` has all occurrences replaced by `anon`, any other
value is recursed into (container spines are list/map continuations). -/
def sanitizeSlot (real anon : String) : RTree → RTree
  | .str s =>
    if subOccurs real.data s.data = true then .str (pyReplace s real anon) else .str s
  | .num n => .num n
  | .arrNil => .arrNil
  | .dictNil => .dictNil
  | .arrCons v rest => .arrCons (sanitizeSlot real anon v) (sanitizeSlot real anon rest)
  | .dictCons k v rest => .dictCons k (sanitizeSlot real anon v) (sanitizeSlot real anon rest)

/-- Embedding of `_sanitize_paths_in_output` applied to a tree: a bare string
or other leaf at top level is returned unchanged (the in-place Python walk
only rewrites container slots); every container slot receives the
`sanitizeSlot` treatment. -/
def sanitizeTree (real anon : String) : RTree → RTree
  | .str s => .str s
  | .num n => .num n
  | .arrNil => .arrNil
  | .dictNil => .dictNil
  | .arrCons v rest => .arrCons (sanitizeSlot real anon v) (sanitizeTree real anon rest)
  | .dictCons k v rest => .dictCons k (sanitizeSlot real anon v) (sanitizeTree real anon rest)

/-- No string value anywhere in the tree contains `real` as a substring
(map keys are not values and are not inspected). -/
def treeNoSub (real : String) : RTree → Bool
  | .str s => !(subOccurs real.data s.data)
  | .num _ => true
  | .arrNil => true
  | .dictNil => true
  | .arrCons v rest => treeNoSub real v && treeNoSub real rest
  | .dictCons _ v rest => treeNoSub real v && treeNoSub real rest

theorem sanitizeSlot_of_noSub (real anon : String) :
    ∀ t : RTree, treeNoSub real t = true → sanitizeSlot real anon t = t := by
  intro t
  induction t with
  | str s =>
    intro h
    have hc : subOccurs real.data s.data = false := by
      rw [show treeNoSub real (.str s) = !(subOccurs real.data s.data) from rfl] at h
      simpa using h
    rw [show sanitizeSlot real anon (.str s) =
        (if subOccurs real.data s.data = true then RTree.str (pyReplace s real anon)
          else RTree.str s) from rfl]
    rw [if_neg (by simp [hc])]
  | num n => intro _; rfl
  | arrNil => intro _; rfl
  | dictNil => intro _; rfl
  | arrCons v rest ihv ihr =>
    intro h
    rw [show treeNoSub real (.arrCons v rest) =
        (treeNoSub real v && treeNoSub real rest) from rfl, Bool.and_eq_true] at h
    rw [show sanitizeSlot real anon (.arrCons v rest) =
        .arrCons (sanitizeSlot real anon v) (sanitizeSlot real anon rest) from rfl]
    rw [ihv h.1, ihr h.2]
  | dictCons k v rest ihv ihr =>
    intro h
    rw [show treeNoSub real (.dictCons k v rest) =
        (treeNoSub real v && treeNoSub real rest) from rfl, Bool.and_eq_true] at h
    rw [show sanitizeSlot real anon (.dictCons k v rest) =
        .dictCons k (sanitizeSlot real anon v) (sanitizeSlot real anon rest) from rfl]
    rw [ihv h.1, ihr h.2]

theorem sanitizeTree_of_noSub (real anon : String) :
    ∀ t : RTree, treeNoSub real t = true → sanitizeTree real anon t = t := by
  intro t
  induction t with
  | str s => intro _; rfl
  | num n => intro _; rfl
  | arrNil => intro _; rfl
  | dictNil => intro _; rfl
  | arrCons v rest ihv ihr =>
    intro h
    rw [show treeNoSub real (.arrCons v rest) =
        (treeNoSub real v && treeNoSub real rest) from rfl, Bool.and_eq_true] at h
    rw [show sanitizeTree real anon (.arrCons v rest) =
        .arrCons (sanitizeSlot real anon v) (sanitizeTree real anon rest) from rfl]
    rw [sanitizeSlot_of_noSub real anon v h.1, ihr h.2]
  | dictCons k v rest ihv ihr =>
    intro h
    rw [show treeNoSub real (.dictCons k v rest) =
        (treeNoSub real v && treeNoSub real rest) from rfl, Bool.and_eq_true] at h
    rw [show sanitizeTree real anon (.dictCons k v rest) =
        .dictCons k (sanitizeSlot real anon v) (sanitizeTree real anon rest) from rfl]
    rw [sanitizeSlot_of_noSub real anon v h.1, ihr h.2]

/-- C1 counterexample: for the tree `{k: "aa"}` with realHome `a` and
pseudoHome `aa`, one sanitization pass produces `{k: "aaaa"}`, which still
contains realHome, and a second pass produces `{k: "aaaaaaaa"}`, so the pass
is not idempotent: the replacement reintroduces occurrences of realHome. -/
theorem c1_sanitize_counterexample :
    (¬ sanitizeTree "a" "aa"
        (sanitizeTree "a" "aa" (RTree.dictCons "k" (RTree.str "aa") RTree.dictNil)) =
      sanitizeTree "a" "aa" (RTree.dictCons "k" (RTree.str "aa") RTree.dictNil)) ∧
      treeNoSub "a"
        (sanitizeTree "a" "aa" (RTree.dictCons "k" (RTree.str "aa") RTree.dictNil)) =
        false := by
  exact ⟨by decide, by decide⟩

/-- C1 (amended): the sanitization pass leaves a tree with no occurrence of
realHome unchanged, and is therefore idempotent on every tree for which one
application removes all occurrences (which the unconditional claim wrongly
took for granted: the replacement can reintroduce realHome, as when
pseudoHome contains realHome). -/
theorem c1_amended_sanitize_idempotent (real anon : String) (t : RTree)
    (h : treeNoSub real (sanitizeTree real anon t) = true) :
    sanitizeTree real anon (sanitizeTree real anon t) = sanitizeTree real anon t ∧
      (treeNoSub real t = true → sanitizeTree real anon t = t) :=
  ⟨sanitizeTree_of_noSub real anon _ h, fun h0 => sanitizeTree_of_noSub real anon t h0⟩

/-- Witness for C1 (amended) on the tree `{path: "/Users/bob/x"}` with
realHome `/Users/bob` and pseudoHome `/Users/anon`, for which one pass
removes every occurrence. -/
theorem c1_amended_sanitize_idempotent_witness :
    treeNoSub "/Users/bob"
        (sanitizeTree "/Users/bob" "/Users/anon"
          (RTree.dictCons "path" (RTree.str "/Users/bob/x") RTree.dictNil)) = true ∧
      sanitizeTree "/Users/bob" "/Users/anon"
          (sanitizeTree "/Users/bob" "/Users/anon"
            (RTree.dictCons "path" (RTree.str "/Users/bob/x") RTree.dictNil)) =
        sanitizeTree "/Users/bob" "/Users/anon"
          (RTree.dictCons "path" (RTree.str "/Users/bob/x") RTree.dictNil) :=
  ⟨by decide,
    (c1_amended_sanitize_idempotent "/Users/bob" "/Users/anon"
      (RTree.dictCons "path" (RTree.str "/Users/bob/x") RTree.dictNil) (by decide)).1⟩

/-! C9: frame conditions of the sanitizer. -/

/-- The frame of a tree: everything except the contents of string values
(string leaves are blanked, all structure, map keys and other leaves kept). -/
def frameOf : RTree → RTree
  | .str _ => .str ""
  | .num n => .num n
  | .arrNil => .arrNil
  | .dictNil => .dictNil
  | .arrCons v rest => .arrCons (frameOf v) (frameOf rest)
  | .dictCons k v rest => .dictCons k (frameOf v) (frameOf rest)

/-- The keys of the top-level map spine, in order. -/
def keysOfTree : RTree → List String
  | .dictCons k _ rest => k :: keysOfTree rest
  | _ => []

/-- The number of entries of the top-level list or map spine. -/
def spineLen : RTree → Nat
  | .arrCons _ rest => 1 + spineLen rest
  | .dictCons _ _ rest => 1 + spineLen rest
  | _ => 0

theorem frameOf_sanitizeSlot (real anon : String) :
    ∀ t : RTree, frameOf (sanitizeSlot real anon t) = frameOf t := by
  intro t
  induction t with
  | str s =>
    by_cases h : subOccurs real.data s.data = true
    · rw [show sanitizeSlot real anon (.str s) =
          (if subOccurs real.data s.data = true then RTree.str (pyReplace s real anon)
            else RTree.str s) from rfl, if_pos h]
      rfl
    · rw [show sanitizeSlot real anon (.str s) =
          (if subOccurs real.data s.data = true then RTree.str (pyReplace s real anon)
            else RTree.str s) from rfl, if_neg h]
  | num n => rfl
  | arrNil => rfl
  | dictNil => rfl
  | arrCons v rest ihv ihr =>
    rw [show sanitizeSlot real anon (.arrCons v rest) =
        .arrCons (sanitizeSlot real anon v) (sanitizeSlot real anon rest) from rfl]
    rw [show frameOf (RTree.arrCons (sanitizeSlot real anon v) (sanitizeSlot real anon rest)) =
        .arrCons (frameOf (sanitizeSlot real anon v)) (frameOf (sanitizeSlot real anon rest)) from rfl]
    rw [ihv, ihr]
    rfl
  | dictCons k v rest ihv ihr =>
    rw [show sanitizeSlot real anon (.dictCons k v rest) =
        .dictCons k (sanitizeSlot real anon v) (sanitizeSlot real anon rest) from rfl]
    rw [show frameOf (RTree.dictCons k (sanitizeSlot real anon v) (sanitizeSlot real anon rest)) =
        .dictCons k (frameOf (sanitizeSlot real anon v)) (frameOf (sanitizeSlot real anon rest)) from rfl]
    rw [ihv, ihr]
    rfl

theorem frameOf_sanitizeTree (real anon : String) :
    ∀ t : RTree, frameOf (sanitizeTree real anon t) = frameOf t := by
  intro t
  induction t with
  | str s => rfl
  | num n => rfl
  | arrNil => rfl
  | dictNil => rfl
  | arrCons v rest ihv ihr =>
    rw [show sanitizeTree real anon (.arrCons v rest) =
        .arrCons (sanitizeSlot real anon v) (sanitizeTree real anon rest) from rfl]
    rw [show frameOf (RTree.arrCons (sanitizeSlot real anon v) (sanitizeTree real anon rest)) =
        .arrCons (frameOf (sanitizeSlot real anon v)) (frameOf (sanitizeTree real anon rest)) from rfl]
    rw [frameOf_sanitizeSlot, ihr]
    rfl
  | dictCons k v rest ihv ihr =>
    rw [show sanitizeTree real anon (.dictCons k v rest) =
        .dictCons k (sanitizeSlot real anon v) (sanitizeTree real anon rest) from rfl]
    rw [show frameOf (RTree.dictCons k (sanitizeSlot real anon v) (sanitizeTree real anon rest)) =
        .dictCons k (frameOf (sanitizeSlot real anon v)) (frameOf (sanitizeTree real anon rest)) from rfl]
    rw [frameOf_sanitizeSlot, ihr]
    rfl

theorem keysOfTree_frameOf : ∀ t : RTree, keysOfTree (frameOf t) = keysOfTree t := by
  intro t
  induction t with
  | str s => rfl
  | num n => rfl
  | arrNil => rfl
  | dictNil => rfl
  | arrCons v rest ihv ihr => rfl
  | dictCons k v rest ihv ihr =>
    rw [show frameOf (RTree.dictCons k v rest) =
        .dictCons k (frameOf v) (frameOf rest) from rfl]
    rw [show keysOfTree (RTree.dictCons k (frameOf v) (frameOf rest)) =
        k :: keysOfTree (frameOf rest) from rfl]
    rw [ihr]
    rfl

theorem spineLen_frameOf : ∀ t : RTree, spineLen (frameOf t) = spineLen t := by
  intro t
  induction t with
  | str s => rfl
  | num n => rfl
  | arrNil => rfl
  | dictNil => rfl
  | arrCons v rest ihv ihr =>
    rw [show frameOf (RTree.arrCons v rest) = .arrCons (frameOf v) (frameOf rest) from rfl]
    rw [show spineLen (RTree.arrCons (frameOf v) (frameOf rest)) =
        1 + spineLen (frameOf rest) from rfl]
    rw [ihr]
    rfl
  | dictCons k v rest ihv ihr =>
    rw [show frameOf (RTree.dictCons k v rest) =
        .dictCons k (frameOf v) (frameOf rest) from rfl]
    rw [show spineLen (RTree.dictCons k (frameOf v) (frameOf rest)) =
        1 + spineLen (frameOf rest) from rfl]
    rw [ihr]
    rfl

/-- C9: the sanitizer preserves the whole frame of the report tree - map
keys (never rewritten even when a key contains realHome), list and map
lengths, non-string leaves, and string values without an occurrence of
realHome; the only change is that a string value containing realHome is
replaced by its all-occurrence replacement. -/
theorem c9_sanitize_frame_conditions (real anon : String) :
    (∀ t : RTree, frameOf (sanitizeTree real anon t) = frameOf t) ∧
      (∀ t : RTree, keysOfTree (sanitizeTree real anon t) = keysOfTree t) ∧
      (∀ t : RTree, spineLen (sanitizeTree real anon t) = spineLen t) ∧
      (∀ n : Int, sanitizeSlot real anon (.num n) = .num n) ∧
      (∀ s : String, subOccurs real.data s.data = false →
        sanitizeSlot real anon (.str s) = .str s) ∧
      (∀ s : String, subOccurs real.data s.data = true →
        sanitizeSlot real anon (.str s) = .str (pyReplace s real anon)) := by
  refine ⟨frameOf_sanitizeTree real anon, ?_, ?_, fun n => rfl, ?_, ?_⟩
  · intro t
    rw [← keysOfTree_frameOf t, ← frameOf_sanitizeTree real anon t, keysOfTree_frameOf]
  · intro t
    rw [← spineLen_frameOf t, ← frameOf_sanitizeTree real anon t, spineLen_frameOf]
  · intro s h
    rw [show sanitizeSlot real anon (.str s) =
        (if subOccurs real.data s.data = true then RTree.str (pyReplace s real anon)
          else RTree.str s) from rfl, if_neg (by simp [h])]
  · intro s h
    rw [show sanitizeSlot real anon (.str s) =
        (if subOccurs real.data s.data = true then RTree.str (pyReplace s real anon)
          else RTree.str s) from rfl, if_pos h]

/-- Witness for C9 on a concrete tree: a map with a key containing realHome,
a clean string value, a replaced string value and a numeric leaf. -/
theorem c9_sanitize_frame_conditions_witness :
    keysOfTree (sanitizeTree "bob" "anon"
        (RTree.dictCons "bobkey" (RTree.str "keep")
          (RTree.dictCons "n" (RTree.num 7)
            (RTree.dictCons "p" (RTree.str "/Users/bob/x") RTree.dictNil)))) =
      ["bobkey", "n", "p"] ∧
      subOccurs ("bob" : String).data ("keep" : String).data = false ∧
      sanitizeSlot "bob" "anon" (RTree.str "keep") = RTree.str "keep" ∧
      subOccurs ("bob" : String).data ("/Users/bob/x" : String).data = true ∧
      sanitizeSlot "bob" "anon" (RTree.str "/Users/bob/x") =
        RTree.str (pyReplace "/Users/bob/x" "bob" "anon") ∧
      sanitizeSlot "bob" "anon" (RTree.num 7) = RTree.num 7 :=
  ⟨by decide, by decide,
    (c9_sanitize_frame_conditions "bob" "anon").2.2.2.2.1 "keep" (by decide),
    by decide,
    (c9_sanitize_frame_conditions "bob" "anon").2.2.2.2.2 "/Users/bob/x" (by decide),
    (c9_sanitize_frame_conditions "bob" "anon").2.2.2.1 7⟩

/-! The evidence probes. The filesystem and process environment are explicit
records of functions; a Python exception escaping a probe is an `Except`
error, and `try/except PermissionError` keeps only the `permission` case. -/

/-- An OS error raised by a filesystem call: `PermissionError` or any other
`OSError`. -/
inductive OsErr where
  | permission
  | other
deriving DecidableEq

/-- An error raised while opening and JSON-decoding a package manifest:
`json.JSONDecodeError` and `OSError` are caught by the source, a
`UnicodeDecodeError` is not. -/
inductive PkgErr where
  | jsonDecode
  | osError
  | unicode
deriving DecidableEq

/-- The fields `_get_app_info` reads from a bundle `Info.plist`. -/
structure Plist where
  shortVersion : Option String
  bundleVersion : Option String
  bundleId : Option String

/-- The fields the probes read from `os.stat`. -/
structure StatInfo where
  size : Int
  mtimeIso : String

/-- The fields `_read_extension_info` reads from a `package.json`. -/
structure Pkg where
  displayName : Option String
  name : Option String
  publisher : Option String
  version : Option String

/-- The filesystem as seen by the probes. -/
structure PyFS where
  pathExists : String → Bool
  isdir : String → Bool
  isfile : String → Bool
  listdir : String → Except OsErr (List String)
  statInfo : String → Except OsErr StatInfo
  readPlist : String → Except Unit Plist
  readPkg : String → Except PkgErr Pkg

/-- An error raised by a child-process invocation, named as Python names the
exception type. -/
inductive RunErr where
  | timeoutExpired
  | fileNotFound
  | otherExc (typeName : String)
deriving DecidableEq

/-- Captured output of a child process. -/
structure CmdOut where
  stdout : String
  stderr : String

/-- The process environment: executable resolution and command invocation. -/
structure Env where
  which : String → Option String
  runCmd : List String → Except RunErr CmdOut

/-- Python `type(e).__name__` for the run errors. -/
def runErrName : RunErr → String
  | .timeoutExpired => "TimeoutExpired"
  | .fileNotFound => "FileNotFoundError"
  | .otherExc n => n

/-- `os.path.join(a, b)` for a relative second component. -/
def pyJoin (a b : String) : String := a ++ "/" ++ b

/-- `os.path.dirname`: the part before the last slash. -/
def pyDirname (p : String) : String :=
  match p.data.reverse.dropWhile (fun c => c != '/') with
  | [] => ""
  | _ :: rest => ⟨rest.reverse⟩

/-- `os.path.expanduser`: replace a leading `~` with the home directory. -/
def expandUser (home path : String) : String :=
  if leadsL "~/".data path.data = true then home ++ (⟨path.data.drop 1⟩ : String)
  else if path = "~" then home
  else path

/-- Lexicographic comparison of character lists by code point, the order
Python `sorted` uses on strings. -/
def lexLe : List Char → List Char → Bool
  | [], _ => true
  | _ :: _, [] => false
  | x :: xs, y :: ys =>
    if x.toNat < y.toNat then true
    else if y.toNat < x.toNat then false
    else lexLe xs ys

/-- Lexicographic order on strings as a proposition. -/
def strLeP (a b : String) : Prop := lexLe a.data b.data = true

instance strLeP_decidable : DecidableRel strLeP :=
  fun a b => inferInstanceAs (Decidable (lexLe a.data b.data = true))

theorem lexLe_total : ∀ a b : List Char, lexLe a b = true ∨ lexLe b a = true
  | [], _ => Or.inl rfl
  | _ :: _, [] => Or.inr rfl
  | x :: xs, y :: ys => by
    rw [show lexLe (x :: xs) (y :: ys) =
        (if x.toNat < y.toNat then true else if y.toNat < x.toNat then false
          else lexLe xs ys) from rfl]
    rw [show lexLe (y :: ys) (x :: xs) =
        (if y.toNat < x.toNat then true else if x.toNat < y.toNat then false
          else lexLe ys xs) from rfl]
    by_cases h1 : x.toNat < y.toNat
    · left
      rw [if_pos h1]
    · by_cases h2 : y.toNat < x.toNat
      · right
        rw [if_pos h2]
      · rw [if_neg h1, if_neg h2, if_neg h2, if_neg h1]
        exact lexLe_total xs ys

theorem lexLe_trans : ∀ a b c : List Char,
    lexLe a b = true → lexLe b c = true → lexLe a c = true
  | [], _, _ => by
    intro _ _
    rfl
  | x :: xs, [], _ => by
    intro h _
    exact absurd h (by simp [lexLe])
  | _ :: _, _ :: _, [] => by
    intro _ h2
    exact absurd h2 (by simp [lexLe])
  | x :: xs, y :: ys, z :: zs => by
    intro h1 h2
    rw [show lexLe (x :: xs) (y :: ys) =
        (if x.toNat < y.toNat then true else if y.toNat < x.toNat then false
          else lexLe xs ys) from rfl] at h1
    rw [show lexLe (y :: ys) (z :: zs) =
        (if y.toNat < z.toNat then true else if z.toNat < y.toNat then false
          else lexLe ys zs) from rfl] at h2
    rw [show lexLe (x :: xs) (z :: zs) =
        (if x.toNat < z.toNat then true else if z.toNat < x.toNat then false
          else lexLe xs zs) from rfl]
    by_cases hxy : x.toNat < y.toNat
    · by_cases hyz : y.toNat < z.toNat
      · rw [if_pos (by omega)]
      · by_cases hzy : z.toNat < y.toNat
        · rw [if_neg hyz, if_pos hzy] at h2
          exact absurd h2 (by simp)
        · rw [if_pos (by omega)]
    · by_cases hyx : y.toNat < x.toNat
      · rw [if_neg hxy, if_pos hyx] at h1
        exact absurd h1 (by simp)
      · by_cases hyz : y.toNat < z.toNat
        · rw [if_pos (by omega)]
        · by_cases hzy : z.toNat < y.toNat
          · rw [if_neg hyz, if_pos hzy] at h2
            exact absurd h2 (by simp)
          · rw [if_neg (by omega), if_neg (by omega)]
            rw [if_neg hxy, if_neg hyx] at h1
            rw [if_neg hyz, if_neg hzy] at h2
            exact lexLe_trans xs ys zs h1 h2

instance strLeP_total : IsTotal String strLeP :=
  ⟨fun a b => lexLe_total a.data b.data⟩

instance strLeP_trans : IsTrans String strLeP :=
  ⟨fun a b c h1 h2 => lexLe_trans a.data b.data c.data h1 h2⟩

/-- Python `sorted` on strings: a sort by code-point lexicographic order
(string comparison is antisymmetric, so every correct sort yields this value). -/
def pySorted (l : List String) : List String := l.insertionSort strLeP

/-! Catalog entries and evidence records (`aiapp_scanner.py` lines 284-560). -/

/-- A catalog application entry; the probe reads only `name` and `vendor`. -/
structure AppEntry where
  name : String
  vendor : String
deriving DecidableEq

/-- A catalog CLI-tool entry; `versionCmd` and `configPaths` default to empty
lists when missing from the config. -/
structure CliEntry where
  name : String
  vendor : String
  versionCmd : List String
  configPaths : List String
deriving DecidableEq

/-- A named group of candidate configuration paths. -/
structure ConfigLocation where
  name : String
  paths : List String
deriving DecidableEq

/-- A catalog editor-extension entry; the source reads each field with
`dict.get`, so a missing key is `none` (distinct from an empty string). -/
structure ExtEntry where
  idOpt : Option String
  nameOpt : Option String
  vendorOpt : Option String
deriving DecidableEq

/-- An application record (`_get_app_info` result). -/
structure AppRecord where
  name : String
  vendor : String
  version : String
  bundleVersion : String
  bundleId : String
  path : String
  installLocation : String
deriving DecidableEq

/-- A per-path configuration probe result (`_check_config` element). -/
structure ConfigInfo where
  path : String
  existsFlag : Bool
  typ : Option String
  fileCount : Option Nat
  files : Option (List String)
  size : Option Int
  modified : Option String
  error : Option String
deriving DecidableEq

/-- A CLI tool record (`_check_tool` result). -/
structure CliRecord where
  name : String
  vendor : String
  path : String
  version : String
  configurations : List ConfigInfo
deriving DecidableEq

/-- A configuration record (`ConfigurationScanner.scan` element); the source
also tags every record with the constant `type: configuration`. -/
structure ConfigRecord where
  name : String
  path : String
  existsFlag : Bool
  fileCount : Option Nat
  files : Option (List String)
  size : Option Int
  error : Option String
deriving DecidableEq

/-- An editor-extension record (`_read_extension_info` result). -/
structure ExtRecord where
  extensionId : String
  name : String
  vendor : String
  version : String
  path : String
  vscodeType : String
deriving DecidableEq

/-! `ApplicationScanner` (lines 284-342). -/

/-- Lookup in the `known_apps` dict built by name comprehension: a later
entry with the same name overwrites an earlier one. -/
def lookupLast (apps : List AppEntry) (n : String) : Option AppEntry :=
  apps.reverse.find? (fun a => a.name == n)

/-- Embedding of `_get_app_info`: read the bundle `Info.plist`, defaulting
each missing field to `unknown`; a missing or unreadable plist yields no
record (the broad `except` absorbs every reading failure). -/
def getAppInfo (fs : PyFS) (appPath : String) (ki : AppEntry) : Option AppRecord :=
  let plistPath := pyJoin appPath "Contents/Info.plist"
  if fs.pathExists plistPath = false then none
  else
    match fs.readPlist plistPath with
    | .error _ => none
    | .ok pl =>
      some {
        name := ki.name
        vendor := ki.vendor
        version := pl.shortVersion.getD "unknown"
        bundleVersion := pl.bundleVersion.getD "unknown"
        bundleId := pl.bundleId.getD "unknown"
        path := appPath
        installLocation := pyDirname appPath }

/-- One directory listing pass of `ApplicationScanner.scan`: keep entries
ending in `.app` that match a known application. -/
def collectApps (fs : PyFS) (apps : List AppEntry) (appDir : String) :
    List String → List AppRecord
  | [] => []
  | item :: items =>
    let rest := collectApps fs apps appDir items
    if endsWithL ".app".data item.data = true then
      match lookupLast apps item with
      | some ki =>
        match getAppInfo fs (pyJoin appDir item) ki with
        | some info => info :: rest
        | none => rest
      | none => rest
    else rest

/-- Embedding of the directory loop of `ApplicationScanner.scan`: a missing
directory is skipped, a `PermissionError` from `os.listdir` is skipped, any
other OS error propagates out of the probe. -/
def appScanDirs (fs : PyFS) (apps : List AppEntry) :
    List String → Except OsErr (List AppRecord)
  | [] => .ok []
  | d :: ds =>
    if fs.pathExists d = false then appScanDirs fs apps ds
    else
      match fs.listdir d with
      | .error .permission => appScanDirs fs apps ds
      | .error e => .error e
      | .ok items =>
        match appScanDirs fs apps ds with
        | .error e => .error e
        | .ok rest => .ok (collectApps fs apps d items ++ rest)

/-- Embedding of `ApplicationScanner.scan` over its three search directories. -/
def appScannerScan (fs : PyFS) (home : String) (apps : List AppEntry) :
    Except OsErr (List AppRecord) :=
  appScanDirs fs apps ["/Applications", home ++ "/Applications", "/System/Applications"]

/-! `CLIToolScanner` (lines 345-436). -/

/-- Output formatting of `_get_version` on a completed command: stripped
stdout, else stripped stderr; newlines to spaces; strip; 200-character cap;
empty becomes `unknown`. -/
def versionOfOutput (r : CmdOut) : String :=
  let v := if pyStrip r.stdout = "" then pyStrip r.stderr else pyStrip r.stdout
  let v2 := pyStrip (⟨v.data.map (fun c => if c = '\n' then ' ' else c)⟩ : String)
  if v2 = "" then "unknown" else ⟨v2.data.take 200⟩

/-- Embedding of `_get_version`: an empty command vector yields `unknown`;
an exception from the child process (the except clause covers every
exception) yields the sentinel `error: <TypeName>`. -/
def getVersion (env : Env) (tc : CliEntry) : String :=
  if tc.versionCmd = [] then "unknown"
  else
    match env.runCmd tc.versionCmd with
    | .error e => "error: " ++ runErrName e
    | .ok r => versionOfOutput r

/-- Embedding of the per-path body of `_check_config`: a missing path is
omitted; a directory gets a capped sorted listing and a count, with a
`PermissionError` from `os.listdir` degrading to an `error` field and any
other OS error propagating; a file gets size and timestamp, with every
`os.stat` failure silently absorbed. -/
def checkConfigPath (fs : PyFS) (home : String) (path : String) :
    Except OsErr (Option ConfigInfo) :=
  let ep := expandUser home path
  if fs.pathExists ep = false then .ok none
  else
    if fs.isdir ep = true then
      match fs.listdir ep with
      | .error .permission =>
        .ok (some { path := ep, existsFlag := true, typ := none, fileCount := none,
                    files := none, size := none, modified := none,
                    error := some "permission_denied" })
      | .error e => .error e
      | .ok files =>
        .ok (some { path := ep, existsFlag := true, typ := some "directory",
                    fileCount := some files.length,
                    files := some ((pySorted files).take 20),
                    size := none, modified := none, error := none })
    else
      match fs.statInfo ep with
      | .error _ =>
        .ok (some { path := ep, existsFlag := true, typ := some "file", fileCount := none,
                    files := none, size := none, modified := none, error := none })
      | .ok st =>
        .ok (some { path := ep, existsFlag := true, typ := some "file", fileCount := none,
                    files := none, size := some st.size, modified := some st.mtimeIso,
                    error := none })

/-- Embedding of `_check_config` over the candidate path list. -/
def checkConfigList (fs : PyFS) (home : String) :
    List String → Except OsErr (List ConfigInfo)
  | [] => .ok []
  | p :: ps =>
    match checkConfigPath fs home p with
    | .error e => .error e
    | .ok none => checkConfigList fs home ps
    | .ok (some ci) =>
      match checkConfigList fs home ps with
      | .error e => .error e
      | .ok rest => .ok (ci :: rest)

/-- Embedding of `_check_tool`: no record when the binary does not resolve
(or resolves to a falsy empty path); otherwise one record with the version
string and the configuration probe results. -/
def checkTool (fs : PyFS) (env : Env) (home : String) (tc : CliEntry) :
    Except OsErr (Option CliRecord) :=
  match env.which tc.name with
  | none => .ok none
  | some toolPath =>
    if toolPath = "" then .ok none
    else
      match checkConfigList fs home tc.configPaths with
      | .error e => .error e
      | .ok configs =>
        .ok (some { name := tc.name, vendor := tc.vendor, path := toolPath,
                    version := getVersion env tc, configurations := configs })

/-- Embedding of `CLIToolScanner.scan`. -/
def cliScan (fs : PyFS) (env : Env) (home : String) :
    List CliEntry → Except OsErr (List CliRecord)
  | [] => .ok []
  | t :: ts =>
    match checkTool fs env home t with
    | .error e => .error e
    | .ok none => cliScan fs env home ts
    | .ok (some r) =>
      match cliScan fs env home ts with
      | .error e => .error e
      | .ok rest => .ok (r :: rest)

/-! `ConfigurationScanner` (lines 439-474). -/

/-- Embedding of the per-path body of `ConfigurationScanner.scan`: a missing
path is omitted; a directory gets a capped sorted listing and a count and a
file gets its size, with a `PermissionError` from either `os.listdir` or
`os.stat` still yielding a record tagged `error: permission_denied` and any
other OS error propagating. -/
def configScanPath (fs : PyFS) (home locName : String) (path : String) :
    Except OsErr (Option ConfigRecord) :=
  let ep := expandUser home path
  if fs.pathExists ep = false then .ok none
  else
    if fs.isdir ep = true then
      match fs.listdir ep with
      | .error .permission =>
        .ok (some { name := locName, path := ep, existsFlag := true, fileCount := none,
                    files := none, size := none, error := some "permission_denied" })
      | .error e => .error e
      | .ok files =>
        .ok (some { name := locName, path := ep, existsFlag := true,
                    fileCount := some files.length,
                    files := some ((pySorted files).take 20),
                    size := none, error := none })
    else
      match fs.statInfo ep with
      | .error .permission =>
        .ok (some { name := locName, path := ep, existsFlag := true, fileCount := none,
                    files := none, size := none, error := some "permission_denied" })
      | .error e => .error e
      | .ok st =>
        .ok (some { name := locName, path := ep, existsFlag := true, fileCount := none,
                    files := none, size := some st.size, error := none })

/-- The inner path loop of `ConfigurationScanner.scan` for one location. -/
def configScanPaths (fs : PyFS) (home locName : String) :
    List String → Except OsErr (List ConfigRecord)
  | [] => .ok []
  | p :: ps =>
    match configScanPath fs home locName p with
    | .error e => .error e
    | .ok none => configScanPaths fs home locName ps
    | .ok (some r) =>
      match configScanPaths fs home locName ps with
      | .error e => .error e
      | .ok rest => .ok (r :: rest)

/-- Embedding of `ConfigurationScanner.scan` over the location groups. -/
def configScan (fs : PyFS) (home : String) :
    List ConfigLocation → Except OsErr (List ConfigRecord)
  | [] => .ok []
  | loc :: locs =>
    match configScanPaths fs home loc.name loc.paths with
    | .error e => .error e
    | .ok rs =>
      match configScan fs home locs with
      | .error e => .error e
      | .ok rest => .ok (rs ++ rest)

/-! `VSCodeExtensionScanner` (lines 477-560). -/

/-- `ext_cfg.get(id) or ext_cfg.get(name, )`: the id, falling back to the
name when the id is missing or empty. -/
def extIdOf (e : ExtEntry) : String :=
  if e.idOpt.getD "" = "" then e.nameOpt.getD "" else e.idOpt.getD ""

/-- The record built from catalog data alone when the manifest is missing or
unreadable. -/
def fallbackExtRecord (e : ExtEntry) (extPath vt : String) : ExtRecord :=
  { extensionId := e.idOpt.getD ""
    name := match e.nameOpt with | some s => s | none => e.idOpt.getD ""
    vendor := e.vendorOpt.getD ""
    version := "unknown"
    path := extPath
    vscodeType := vt }

/-- The chained truthiness fallback `a or b or c` of Python on strings. -/
def firstTruthy (a b c : String) : String :=
  if a ≠ "" then a else if b ≠ "" then b else c

/-- Embedding of `_read_extension_info`: a missing manifest or one raising
`json.JSONDecodeError` or `OSError` yields the catalog fallback record; a
`UnicodeDecodeError` is outside the except clause and propagates. -/
def readExtensionInfo (fs : PyFS) (extPath : String) (e : ExtEntry) (vt : String) :
    Except PkgErr ExtRecord :=
  let pkgPath := pyJoin extPath "package.json"
  if fs.isfile pkgPath = false then .ok (fallbackExtRecord e extPath vt)
  else
    match fs.readPkg pkgPath with
    | .error .jsonDecode => .ok (fallbackExtRecord e extPath vt)
    | .error .osError => .ok (fallbackExtRecord e extPath vt)
    | .error .unicode => .error .unicode
    | .ok pkg =>
      let dn := pkg.displayName.getD ""
      let dn2 :=
        if subOccurs ['%'] dn.data = true ∨ dn = "" then
          firstTruthy (e.nameOpt.getD "") (pkg.name.getD "") (e.idOpt.getD "")
        else dn
      .ok { extensionId := e.idOpt.getD ""
            name := dn2
            vendor := match e.vendorOpt with | some v => v | none => pkg.publisher.getD ""
            version := pkg.version.getD "unknown"
            path := extPath
            vscodeType := vt }

/-- The inner catalog loop of `VSCodeExtensionScanner.scan` for one directory
entry: skip catalog entries with an empty or dot-free id, match on the
`id + -` folder prefix (exactly or lowercased), and stop at the first match. -/
def matchExtForEntry (fs : PyFS) (extDir entry vt : String) :
    List ExtEntry → Except PkgErr (Option ExtRecord)
  | [] => .ok none
  | e :: es =>
    let extId := extIdOf e
    if extId = "" ∨ subOccurs ['.'] extId.data = false then
      matchExtForEntry fs extDir entry vt es
    else
      let pfx := extId ++ "-"
      if leadsL pfx.data entry.data = true ∨
          leadsL (lowerStr pfx).data (lowerStr entry).data = true then
        match readExtensionInfo fs (pyJoin extDir entry) e vt with
        | .error er => .error er
        | .ok info => .ok (some info)
      else matchExtForEntry fs extDir entry vt es

/-- The entry loop of `VSCodeExtensionScanner.scan` for one directory. -/
def extScanEntries (fs : PyFS) (wanted : List ExtEntry) (extDir vt : String) :
    List String → Except PkgErr (List ExtRecord)
  | [] => .ok []
  | entry :: entries =>
    match matchExtForEntry fs extDir entry vt wanted with
    | .error e => .error e
    | .ok none => extScanEntries fs wanted extDir vt entries
    | .ok (some r) =>
      match extScanEntries fs wanted extDir vt entries with
      | .error e => .error e
      | .ok rest => .ok (r :: rest)

/-- An error escaping the extension probe: a non-permission OS error from the
directory listing, or a text-decoding error from a manifest read. -/
inductive ExtScanErr where
  | os (e : OsErr)
  | pkg (e : PkgErr)
deriving DecidableEq

/-- Embedding of the directory loop of `VSCodeExtensionScanner.scan`. -/
def extScanDirs (fs : PyFS) (wanted : List ExtEntry) :
    List (String × String) → Except ExtScanErr (List ExtRecord)
  | [] => .ok []
  | (dir, vt) :: rest =>
    if fs.isdir dir = false then extScanDirs fs wanted rest
    else
      match fs.listdir dir with
      | .error .permission => extScanDirs fs wanted rest
      | .error e => .error (.os e)
      | .ok entries =>
        match extScanEntries fs wanted dir vt entries with
        | .error pe => .error (.pkg pe)
        | .ok found =>
          match extScanDirs fs wanted rest with
          | .error e => .error e
          | .ok more => .ok (found ++ more)

/-- Embedding of `VSCodeExtensionScanner.scan` over the two variant roots. -/
def vscodeScan (fs : PyFS) (home : String) (wanted : List ExtEntry) :
    Except ExtScanErr (List ExtRecord) :=
  extScanDirs fs wanted
    [(expandUser home "~/.vscode/extensions", "vscode"),
      (expandUser home "~/.vscode-insiders/extensions", "vscode-insiders")]

/-! C4: totality of the probes over filesystem states. -/

/-- A filesystem whose probe-visible failures are all `PermissionError`s and
whose manifests decode as text: exactly the failure modes the probes
absorb. -/
def PyFS.permOnly (fs : PyFS) : Prop :=
  (∀ p, fs.listdir p ≠ .error OsErr.other) ∧
    (∀ p, fs.statInfo p ≠ .error OsErr.other) ∧
    (∀ p, fs.readPkg p ≠ .error PkgErr.unicode)

/-- A filesystem state on which every listing raises a non-permission OS
error and every manifest read raises a text-decoding error. -/
def badFS : PyFS :=
  { pathExists := fun _ => true
    isdir := fun _ => true
    isfile := fun _ => false
    listdir := fun _ => .error .other
    statInfo := fun _ => .error .other
    readPlist := fun _ => .error ()
    readPkg := fun _ => .error .unicode }

/-- C4 counterexample: on a filesystem whose directory listings raise a
non-permission OS error, all four probes abort with an unhandled error
instead of producing a record, an omission or a degraded record - the
`except PermissionError` clauses do not cover other OS errors. -/
theorem c4_probe_escape_counterexample :
    appScannerScan badFS "/Users/u" [] = .error OsErr.other ∧
      cliScan badFS
        { which := fun _ => some "/usr/bin/claude", runCmd := fun _ => .ok ⟨"", ""⟩ }
        "/Users/u"
        [{ name := "claude", vendor := "Anthropic", versionCmd := [],
           configPaths := ["~/.claude"] }] = .error OsErr.other ∧
      configScan badFS "/Users/u"
        [{ name := "OpenAI", paths := ["~/.openai"] }] = .error OsErr.other ∧
      vscodeScan badFS "/Users/u" [] = .error (ExtScanErr.os OsErr.other) := by
  exact ⟨rfl, rfl, rfl, rfl⟩

theorem checkConfigPath_ok (fs : PyFS) (hls : ∀ p, fs.listdir p ≠ .error OsErr.other)
    (home path : String) : ∃ r, checkConfigPath fs home path = .ok r := by
  unfold checkConfigPath
  by_cases hex : fs.pathExists (expandUser home path) = false
  · rw [if_pos hex]
    exact ⟨none, rfl⟩
  · rw [if_neg hex]
    by_cases hd : fs.isdir (expandUser home path) = true
    · rw [if_pos hd]
      rcases hld : fs.listdir (expandUser home path) with e | files
      · cases e with
        | permission => exact ⟨_, rfl⟩
        | other => exact absurd hld (hls _)
      · exact ⟨_, rfl⟩
    · rw [if_neg hd]
      rcases hst : fs.statInfo (expandUser home path) with e | st
      · exact ⟨_, rfl⟩
      · exact ⟨_, rfl⟩

theorem checkConfigList_ok (fs : PyFS) (hls : ∀ p, fs.listdir p ≠ .error OsErr.other)
    (home : String) : ∀ ps : List String, ∃ r, checkConfigList fs home ps = .ok r
  | [] => ⟨[], rfl⟩
  | p :: ps => by
    obtain ⟨r1, hr1⟩ := checkConfigPath_ok fs hls home p
    obtain ⟨rs, hrs⟩ := checkConfigList_ok fs hls home ps
    unfold checkConfigList
    rw [hr1]
    cases r1 with
    | none => exact ⟨rs, hrs⟩
    | some ci =>
      dsimp only
      rw [hrs]
      exact ⟨_, rfl⟩

theorem checkTool_ok (fs : PyFS) (env : Env)
    (hls : ∀ p, fs.listdir p ≠ .error OsErr.other) (home : String) (tc : CliEntry) :
    ∃ r, checkTool fs env home tc = .ok r := by
  unfold checkTool
  rcases henv : env.which tc.name with _ | toolPath
  · exact ⟨none, rfl⟩
  · dsimp only
    by_cases hp : toolPath = ""
    · rw [if_pos hp]
      exact ⟨none, rfl⟩
    · rw [if_neg hp]
      obtain ⟨cfgs, hcfgs⟩ := checkConfigList_ok fs hls home tc.configPaths
      rw [hcfgs]
      exact ⟨_, rfl⟩

theorem cliScan_ok (fs : PyFS) (env : Env)
    (hls : ∀ p, fs.listdir p ≠ .error OsErr.other) (home : String) :
    ∀ ts : List CliEntry, ∃ r, cliScan fs env home ts = .ok r
  | [] => ⟨[], rfl⟩
  | t :: ts => by
    obtain ⟨r1, hr1⟩ := checkTool_ok fs env hls home t
    obtain ⟨rs, hrs⟩ := cliScan_ok fs env hls home ts
    unfold cliScan
    rw [hr1]
    cases r1 with
    | none => exact ⟨rs, hrs⟩
    | some r =>
      dsimp only
      rw [hrs]
      exact ⟨_, rfl⟩

theorem appScanDirs_ok (fs : PyFS) (hls : ∀ p, fs.listdir p ≠ .error OsErr.other)
    (apps : List AppEntry) : ∀ ds : List String, ∃ r, appScanDirs fs apps ds = .ok r
  | [] => ⟨[], rfl⟩
  | d :: ds => by
    obtain ⟨rs, hrs⟩ := appScanDirs_ok fs hls apps ds
    unfold appScanDirs
    by_cases hex : fs.pathExists d = false
    · rw [if_pos hex]
      exact ⟨rs, hrs⟩
    · rw [if_neg hex]
      rcases hld : fs.listdir d with e | items
      · cases e with
        | permission => exact ⟨rs, hrs⟩
        | other => exact absurd hld (hls _)
      · dsimp only
        rw [hrs]
        exact ⟨_, rfl⟩

theorem configScanPath_ok (fs : PyFS) (hls : ∀ p, fs.listdir p ≠ .error OsErr.other)
    (hst : ∀ p, fs.statInfo p ≠ .error OsErr.other) (home locName path : String) :
    ∃ r, configScanPath fs home locName path = .ok r := by
  unfold configScanPath
  by_cases hex : fs.pathExists (expandUser home path) = false
  · rw [if_pos hex]
    exact ⟨none, rfl⟩
  · rw [if_neg hex]
    by_cases hd : fs.isdir (expandUser home path) = true
    · rw [if_pos hd]
      rcases hld : fs.listdir (expandUser home path) with e | files
      · cases e with
        | permission => exact ⟨_, rfl⟩
        | other => exact absurd hld (hls _)
      · exact ⟨_, rfl⟩
    · rw [if_neg hd]
      rcases hs : fs.statInfo (expandUser home path) with e | st
      · cases e with
        | permission => exact ⟨_, rfl⟩
        | other => exact absurd hs (hst _)
      · exact ⟨_, rfl⟩

theorem configScanPaths_ok (fs : PyFS) (hls : ∀ p, fs.listdir p ≠ .error OsErr.other)
    (hst : ∀ p, fs.statInfo p ≠ .error OsErr.other) (home locName : String) :
    ∀ ps : List String, ∃ r, configScanPaths fs home locName ps = .ok r
  | [] => ⟨[], rfl⟩
  | p :: ps => by
    obtain ⟨r1, hr1⟩ := configScanPath_ok fs hls hst home locName p
    obtain ⟨rs, hrs⟩ := configScanPaths_ok fs hls hst home locName ps
    unfold configScanPaths
    rw [hr1]
    cases r1 with
    | none => exact ⟨rs, hrs⟩
    | some r =>
      dsimp only
      rw [hrs]
      exact ⟨_, rfl⟩

theorem configScan_ok (fs : PyFS) (hls : ∀ p, fs.listdir p ≠ .error OsErr.other)
    (hst : ∀ p, fs.statInfo p ≠ .error OsErr.other) (home : String) :
    ∀ locs : List ConfigLocation, ∃ r, configScan fs home locs = .ok r
  | [] => ⟨[], rfl⟩
  | loc :: locs => by
    obtain ⟨r1, hr1⟩ := configScanPaths_ok fs hls hst home loc.name loc.paths
    obtain ⟨rs, hrs⟩ := configScan_ok fs hls hst home locs
    unfold configScan
    rw [hr1]
    dsimp only
    rw [hrs]
    exact ⟨_, rfl⟩

theorem readExtensionInfo_ok (fs : PyFS)
    (hpk : ∀ p, fs.readPkg p ≠ .error PkgErr.unicode)
    (extPath : String) (e : ExtEntry) (vt : String) :
    ∃ r, readExtensionInfo fs extPath e vt = .ok r := by
  unfold readExtensionInfo
  by_cases hif : fs.isfile (pyJoin extPath "package.json") = false
  · rw [if_pos hif]
    exact ⟨_, rfl⟩
  · rw [if_neg hif]
    rcases hpkg : fs.readPkg (pyJoin extPath "package.json") with er | pkg
    · cases er with
      | jsonDecode => exact ⟨_, rfl⟩
      | osError => exact ⟨_, rfl⟩
      | unicode => exact absurd hpkg (hpk _)
    · exact ⟨_, rfl⟩

theorem matchExtForEntry_ok (fs : PyFS)
    (hpk : ∀ p, fs.readPkg p ≠ .error PkgErr.unicode) (extDir entry vt : String) :
    ∀ wanted : List ExtEntry, ∃ r, matchExtForEntry fs extDir entry vt wanted = .ok r
  | [] => ⟨none, rfl⟩
  | e :: es => by
    obtain ⟨rs, hrs⟩ := matchExtForEntry_ok fs hpk extDir entry vt es
    unfold matchExtForEntry
    dsimp only
    by_cases hskip : extIdOf e = "" ∨ subOccurs ['.'] (extIdOf e).data = false
    · rw [if_pos hskip]
      exact ⟨rs, hrs⟩
    · rw [if_neg hskip]
      by_cases hm : leadsL (extIdOf e ++ "-").data entry.data = true ∨
          leadsL (lowerStr (extIdOf e ++ "-")).data (lowerStr entry).data = true
      · rw [if_pos hm]
        obtain ⟨info, hinfo⟩ := readExtensionInfo_ok fs hpk (pyJoin extDir entry) e vt
        rw [hinfo]
        exact ⟨some info, rfl⟩
      · rw [if_neg hm]
        exact ⟨rs, hrs⟩

theorem extScanEntries_ok (fs : PyFS)
    (hpk : ∀ p, fs.readPkg p ≠ .error PkgErr.unicode)
    (wanted : List ExtEntry) (extDir vt : String) :
    ∀ entries : List String, ∃ r, extScanEntries fs wanted extDir vt entries = .ok r
  | [] => ⟨[], rfl⟩
  | entry :: entries => by
    obtain ⟨r1, hr1⟩ := matchExtForEntry_ok fs hpk extDir entry vt wanted
    obtain ⟨rs, hrs⟩ := extScanEntries_ok fs hpk wanted extDir vt entries
    unfold extScanEntries
    rw [hr1]
    cases r1 with
    | none => exact ⟨rs, hrs⟩
    | some r =>
      dsimp only
      rw [hrs]
      exact ⟨_, rfl⟩

theorem extScanDirs_ok (fs : PyFS) (hls : ∀ p, fs.listdir p ≠ .error OsErr.other)
    (hpk : ∀ p, fs.readPkg p ≠ .error PkgErr.unicode) (wanted : List ExtEntry) :
    ∀ dirs : List (String × String), ∃ r, extScanDirs fs wanted dirs = .ok r
  | [] => ⟨[], rfl⟩
  | (d, vt) :: rest => by
    obtain ⟨rs, hrs⟩ := extScanDirs_ok fs hls hpk wanted rest
    unfold extScanDirs
    by_cases hd : fs.isdir d = false
    · rw [if_pos hd]
      exact ⟨rs, hrs⟩
    · rw [if_neg hd]
      rcases hld : fs.listdir d with e | entries
      · cases e with
        | permission => exact ⟨rs, hrs⟩
        | other => exact absurd hld (hls _)
      · dsimp only
        obtain ⟨found, hfound⟩ := extScanEntries_ok fs hpk wanted d vt entries
        rw [hfound]
        dsimp only
        rw [hrs]
        exact ⟨_, rfl⟩

/-- C4 (amended): each of the four probes is total - it returns a result list
instead of raising - for every catalog and every filesystem state whose
listing and stat failures are all permission errors and whose manifest files
decode as text; outside that envelope the probes are not total, because only
`PermissionError` is caught around `os.listdir` (and `os.stat` in the
configuration probe), and `UnicodeDecodeError` escapes the manifest reader. -/
theorem c4_amended_probes_total (fs : PyFS) (env : Env) (home : String)
    (apps : List AppEntry) (tools : List CliEntry) (locs : List ConfigLocation)
    (exts : List ExtEntry) (h : fs.permOnly) :
    (∃ r, appScannerScan fs home apps = .ok r) ∧
      (∃ r, cliScan fs env home tools = .ok r) ∧
      (∃ r, configScan fs home locs = .ok r) ∧
      (∃ r, vscodeScan fs home exts = .ok r) := by
  refine ⟨?_, ?_, ?_, ?_⟩
  · exact appScanDirs_ok fs h.1 apps
      ["/Applications", home ++ "/Applications", "/System/Applications"]
  · exact cliScan_ok fs env h.1 home tools
  · exact configScan_ok fs h.1 h.2.1 home locs
  · exact extScanDirs_ok fs h.1 h.2.2 exts
      [(expandUser home "~/.vscode/extensions", "vscode"),
        (expandUser home "~/.vscode-insiders/extensions", "vscode-insiders")]

/-- A filesystem with nothing on it; all its calls succeed trivially. -/
def emptyFS : PyFS :=
  { pathExists := fun _ => false
    isdir := fun _ => false
    isfile := fun _ => false
    listdir := fun _ => .ok []
    statInfo := fun _ => .ok ⟨0, ""⟩
    readPlist := fun _ => .error ()
    readPkg := fun _ => .error .jsonDecode }

/-- Witness for C4 (amended) on the empty filesystem and a default-like
catalog. -/
theorem c4_amended_probes_total_witness :
    emptyFS.permOnly ∧
      (∃ r, appScannerScan emptyFS "/Users/u"
        [{ name := "Claude.app", vendor := "Anthropic" }] = .ok r) ∧
      (∃ r, cliScan emptyFS { which := fun _ => none, runCmd := fun _ => .ok ⟨"", ""⟩ }
        "/Users/u"
        [{ name := "claude", vendor := "Anthropic", versionCmd := ["claude", "--version"],
           configPaths := ["~/.claude"] }] = .ok r) ∧
      (∃ r, configScan emptyFS "/Users/u"
        [{ name := "OpenAI", paths := ["~/.openai", "~/.config/openai"] }] = .ok r) ∧
      (∃ r, vscodeScan emptyFS "/Users/u"
        [{ idOpt := some "roocode.roocode", nameOpt := some "Roo Code",
           vendorOpt := some "Roo" }] = .ok r) := by
  have hperm : emptyFS.permOnly := by
    unfold PyFS.permOnly
    refine ⟨fun p h => ?_, fun p h => ?_, fun p h => ?_⟩
    · exact Except.noConfusion h
    · exact Except.noConfusion h
    · simp [emptyFS] at h
  have hall := c4_amended_probes_total emptyFS
    { which := fun _ => none, runCmd := fun _ => .ok ⟨"", ""⟩ } "/Users/u"
    [{ name := "Claude.app", vendor := "Anthropic" }]
    [{ name := "claude", vendor := "Anthropic", versionCmd := ["claude", "--version"],
       configPaths := ["~/.claude"] }]
    [{ name := "OpenAI", paths := ["~/.openai", "~/.config/openai"] }]
    [{ idOpt := some "roocode.roocode", nameOpt := some "Roo Code", vendorOpt := some "Roo" }]
    hperm
  exact And.intro hperm
    (And.intro hall.1 (And.intro hall.2.1 (And.intro hall.2.2.1 hall.2.2.2)))

/-! C6: capped, sorted directory listings. -/

theorem pySorted_length (l : List String) : (pySorted l).length = l.length :=
  (List.perm_insertionSort strLeP l).length_eq

theorem pySorted_sorted (l : List String) : List.Sorted strLeP (pySorted l) :=
  List.sorted_insertionSort strLeP l

theorem pySorted_take_sorted (l : List String) (n : Nat) :
    List.Sorted strLeP ((pySorted l).take n) :=
  List.Pairwise.sublist (List.take_sublist n (pySorted l)) (pySorted_sorted l)

/-- C6: when a probed path is a readable directory, both the CLI config probe
and the configuration probe emit a record whose `files` list is the first 20
entries of the listing sorted in ascending code-point lexicographic order
(hence itself sorted, with at most 20 = min 20 n entries), while `file_count`
is the full directory entry count. -/
theorem c6_files_capped_and_sorted (fs : PyFS) (home p locName : String) (l : List String)
    (hex : fs.pathExists (expandUser home p) = true)
    (hdir : fs.isdir (expandUser home p) = true)
    (hls : fs.listdir (expandUser home p) = .ok l) :
    checkConfigPath fs home p = .ok (some {
        path := expandUser home p, existsFlag := true, typ := some "directory",
        fileCount := some l.length, files := some ((pySorted l).take 20),
        size := none, modified := none, error := none }) ∧
      configScanPath fs home locName p = .ok (some {
        name := locName, path := expandUser home p, existsFlag := true,
        fileCount := some l.length, files := some ((pySorted l).take 20),
        size := none, error := none }) ∧
      ((pySorted l).take 20).length = min 20 l.length ∧
      List.Sorted strLeP ((pySorted l).take 20) := by
  refine ⟨?_, ?_, ?_, pySorted_take_sorted l 20⟩
  · unfold checkConfigPath
    rw [if_neg (by simp [hex]), if_pos hdir, hls]
  · unfold configScanPath
    rw [if_neg (by simp [hex]), if_pos hdir, hls]
  · rw [List.length_take, pySorted_length]

/-- A directory with 25 files in scrambled order. -/
def dir25 : List String :=
  ["f17", "f03", "f25", "f09", "f01", "f22", "f14", "f06", "f11", "f24",
   "f02", "f19", "f08", "f13", "f05", "f21", "f10", "f16", "f04", "f23",
   "f07", "f20", "f12", "f18", "f15"]

/-- A filesystem whose every directory contains exactly the 25 files of
`dir25`. -/
def fs25 : PyFS :=
  { pathExists := fun _ => true
    isdir := fun _ => true
    isfile := fun _ => false
    listdir := fun _ => .ok dir25
    statInfo := fun _ => .ok ⟨0, ""⟩
    readPlist := fun _ => .error ()
    readPkg := fun _ => .error .jsonDecode }

/-- Witness for C6 on a 25-file directory: exactly 20 sorted entries and a
file count of 25. -/
theorem c6_files_capped_and_sorted_witness :
    (pySorted dir25).take 20 =
      ["f01", "f02", "f03", "f04", "f05", "f06", "f07", "f08", "f09", "f10",
       "f11", "f12", "f13", "f14", "f15", "f16", "f17", "f18", "f19", "f20"] ∧
      dir25.length = 25 ∧
      ((pySorted dir25).take 20).length = min 20 dir25.length ∧
      checkConfigPath fs25 "/Users/u" "~/.claude" = .ok (some {
        path := expandUser "/Users/u" "~/.claude", existsFlag := true,
        typ := some "directory", fileCount := some dir25.length,
        files := some ((pySorted dir25).take 20),
        size := none, modified := none, error := none }) ∧
      List.Sorted strLeP ((pySorted dir25).take 20) := by
  have h := c6_files_capped_and_sorted fs25 "/Users/u" "~/.claude" "loc" dir25 rfl rfl rfl
  exact ⟨by decide, by decide, h.2.2.1, h.1, h.2.2.2⟩

/-! C7: CLI version sentinel and formatting. -/

theorem leadsL_append (l m : List Char) : leadsL l (l ++ m) = true := by
  induction l with
  | nil => rfl
  | cons c cs ih => simp [leadsL, ih]

theorem singleton_infix_iff_mem (c : Char) (l : List Char) : [c] <:+: l ↔ c ∈ l := by
  constructor
  · rintro ⟨s, t, rfl⟩
    simp
  · intro h
    obtain ⟨s, t, rfl⟩ := List.append_of_mem h
    exact ⟨s, t, by simp⟩

theorem mem_of_mem_pyStripL (c : Char) (l : List Char) (h : c ∈ pyStripL l) : c ∈ l := by
  unfold pyStripL at h
  rw [List.mem_reverse] at h
  have h2 := (List.dropWhile_sublist _).subset h
  rw [List.mem_reverse] at h2
  exact (List.dropWhile_sublist _).subset h2

theorem versionOfOutput_no_newline (r : CmdOut) :
    subOccurs ['\n'] (versionOfOutput r).data = false := by
  unfold versionOfOutput
  set v := if pyStrip r.stdout = "" then pyStrip r.stderr else pyStrip r.stdout with hv
  by_cases h : pyStrip (⟨v.data.map (fun c => if c = '\n' then ' ' else c)⟩ : String) = ""
  · rw [if_pos h]
    decide
  · rw [if_neg h]
    rw [Bool.eq_false_iff]
    intro htrue
    rw [subOccurs_iff, singleton_infix_iff_mem] at htrue
    have h1 : ('\n' : Char) ∈
        pyStripL (v.data.map (fun c => if c = '\n' then ' ' else c)) :=
      (List.take_sublist 200 _).subset htrue
    have h2 : ('\n' : Char) ∈ v.data.map (fun c => if c = '\n' then ' ' else c) :=
      mem_of_mem_pyStripL _ _ h1
    obtain ⟨c, _, hc⟩ := List.mem_map.mp h2
    by_cases hcn : c = '\n'
    · rw [if_pos hcn] at hc
      exact absurd hc (by decide)
    · rw [if_neg hcn] at hc
      exact hcn hc

theorem versionOfOutput_length (r : CmdOut) : (versionOfOutput r).length ≤ 200 := by
  unfold versionOfOutput
  by_cases h : pyStrip (⟨(if pyStrip r.stdout = "" then pyStrip r.stderr
      else pyStrip r.stdout).data.map (fun c => if c = '\n' then ' ' else c)⟩ : String) = ""
  · rw [if_pos h]
    decide
  · rw [if_neg h]
    have : (List.take 200 (pyStrip (⟨(if pyStrip r.stdout = "" then pyStrip r.stderr
        else pyStrip r.stdout).data.map (fun c => if c = '\n' then ' ' else c)⟩ :
          String)).data).length ≤ 200 := by
      rw [List.length_take]
      omega
    exact this

/-- C7: for a CLI entry whose binary resolves (on a filesystem whose listing
failures are permission errors, so the probe completes), the scan emits
exactly one record for the tool; when the version command raises (timeout,
missing executable, or any other exception) the version field is the literal
`error: <ErrorKind>` sentinel, which begins with `error: `; when the command
completes, the version is the stdout-else-stderr text with newlines replaced
by spaces, stripped, capped at 200 characters, empty output becoming
`unknown` - so it never contains a newline and never exceeds 200 characters;
an absent version command also yields `unknown`. -/
theorem c7_version_sentinel_and_format (fs : PyFS) (env : Env) (home : String)
    (tc : CliEntry) (toolPath : String)
    (hw : env.which tc.name = some toolPath) (hp : toolPath ≠ "")
    (hls : ∀ q, fs.listdir q ≠ .error OsErr.other) :
    ∃ rec : CliRecord,
      cliScan fs env home [tc] = .ok [rec] ∧
      rec.name = tc.name ∧
      rec.path = toolPath ∧
      (∀ e, tc.versionCmd ≠ [] → env.runCmd tc.versionCmd = .error e →
        rec.version = "error: " ++ runErrName e ∧
        leadsL ("error: " : String).data rec.version.data = true) ∧
      (∀ out, tc.versionCmd ≠ [] → env.runCmd tc.versionCmd = .ok out →
        rec.version = versionOfOutput out ∧
        rec.version.length ≤ 200 ∧
        subOccurs ['\n'] rec.version.data = false) ∧
      (tc.versionCmd = [] → rec.version = "unknown") := by
  obtain ⟨cfgs, hcfgs⟩ := checkConfigList_ok fs hls home tc.configPaths
  have hct : checkTool fs env home tc = .ok (some {
      name := tc.name, vendor := tc.vendor, path := toolPath,
      version := getVersion env tc, configurations := cfgs }) := by
    unfold checkTool
    rw [hw]
    dsimp only
    rw [if_neg hp, hcfgs]
  refine ⟨CliRecord.mk tc.name tc.vendor toolPath (getVersion env tc) cfgs,
    ?_, rfl, rfl, ?_, ?_, ?_⟩
  · unfold cliScan
    rw [hct]
    dsimp only
    rfl
  · intro e hne herr
    have hgv : getVersion env tc = "error: " ++ runErrName e := by
      unfold getVersion
      rw [if_neg hne, herr]
    refine ⟨hgv, ?_⟩
    show leadsL ("error: " : String).data (getVersion env tc).data = true
    rw [hgv, String.data_append]
    exact leadsL_append _ _
  · intro out hne hok
    have hgv : getVersion env tc = versionOfOutput out := by
      unfold getVersion
      rw [if_neg hne, hok]
    refine ⟨hgv, ?_, ?_⟩
    · show (getVersion env tc).length ≤ 200
      rw [hgv]
      exact versionOfOutput_length out
    · show subOccurs ['\n'] (getVersion env tc).data = false
      rw [hgv]
      exact versionOfOutput_no_newline out
  · intro hnil
    show getVersion env tc = "unknown"
    unfold getVersion
    rw [if_pos hnil]

/-- A process environment in which every version command times out. -/
def envTimeout : Env :=
  { which := fun _ => some "/usr/local/bin/slowtool"
    runCmd := fun _ => .error .timeoutExpired }

/-- A CLI catalog entry for the timing-out tool. -/
def slowTool : CliEntry :=
  { name := "slowtool", vendor := "acme", versionCmd := ["slowtool", "--version"],
    configPaths := [] }

/-- Witness for C7: a tool whose version command exceeds the bound yields
exactly one record whose version is the literal `error: TimeoutExpired`. -/
theorem c7_version_sentinel_and_format_witness :
    (∃ rec : CliRecord,
      cliScan emptyFS envTimeout "/Users/u" [slowTool] = .ok [rec] ∧
      rec.name = slowTool.name ∧
      rec.path = "/usr/local/bin/slowtool" ∧
      (∀ e, slowTool.versionCmd ≠ [] → envTimeout.runCmd slowTool.versionCmd = .error e →
        rec.version = "error: " ++ runErrName e ∧
        leadsL ("error: " : String).data rec.version.data = true) ∧
      (∀ out, slowTool.versionCmd ≠ [] → envTimeout.runCmd slowTool.versionCmd = .ok out →
        rec.version = versionOfOutput out ∧
        rec.version.length ≤ 200 ∧
        subOccurs ['\n'] rec.version.data = false) ∧
      (slowTool.versionCmd = [] → rec.version = "unknown")) ∧
      getVersion envTimeout slowTool = "error: TimeoutExpired" :=
  ⟨c7_version_sentinel_and_format emptyFS envTimeout "/Users/u" slowTool
      "/usr/local/bin/slowtool" rfl (by decide) (fun q h => Except.noConfusion h),
    by decide⟩
